import Mathlib

/-!
# Verification of the koishi `plugin-eval` isolated execution worker

A shallow embedding of `src/packages/plugin-eval/src/worker.ts`: scope
construction with diff-tracked, permission-checked state synchronization,
the eval/addon invocation lifecycle, the addon registry, and stack-trace
sanitization.

Modelling conventions:
* JavaScript field values are modelled as strings (`Val`); a record or a
  diff is an association list of field name to value.
* A raised JavaScript value is an `ErrVal`: either error-shaped (carrying
  its stack text as a list of lines) or not.
* The asynchronous effectful computations of the worker are modelled in a
  writer-plus-exceptions style: a computation yields the list of RPC
  effects it performed (`updateUser`, `updateGroup`, `send`, `execute`,
  logging) together with either a value or a raised `ErrVal`.
* The sandboxed interpreter (`vm.run`) and the RPC transport are external
  capabilities; the execution of a user source string is a parameter
  (`SourceSem`), and the globals table of the sandbox is an explicit
  association list.
-/

namespace Koishi

/-- JavaScript values stored in record fields, modelled as strings. -/
abbrev Val := String

/-- A diff: changed-field name to new-value mapping since the last commit. -/
abbrev Diff := List (String × Val)

/-- A raised JavaScript value: either error-shaped (`instanceof Error`,
carrying its stack text split into lines) or any other value (carrying its
textual rendering). -/
inductive ErrVal where
  | err (stack : List String)
  | nonError (text : String)
deriving DecidableEq, Repr

/-- A freshly constructed `TypeError` with message `msg`; its stack text is
modelled as the single message line. -/
def typeError (msg : String) : ErrVal := .err ["TypeError: " ++ msg]

/-- RPC effects the worker performs against the host (`main.updateUser`,
`main.updateGroup`, `main.send`, `main.execute`) plus worker-side logging. -/
inductive Effect where
  | updateUser (id : String) (diff : Diff)
  | updateGroup (id : String) (diff : Diff)
  | send (id : String) (content : String)
  | execute (id : String) (message : String)
  | logWarn (e : ErrVal)
deriving DecidableEq, Repr

/-- An effectful worker computation: the list of RPC effects performed, and
either a result or a raised value. -/
def EvalM (α : Type) : Type := List Effect × Except ErrVal α

/-- Return without effects. -/
def pureE {α : Type} (a : α) : EvalM α := ([], .ok a)

/-- Raise `e` (a JavaScript `throw`): no effects, no result. -/
def throwE {α : Type} (e : ErrVal) : EvalM α := ([], .error e)

/-- Perform one RPC effect. -/
def emitE (eff : Effect) : EvalM Unit := ([eff], .ok ())

/-- Sequencing of awaited computations: a raise short-circuits, otherwise
effects accumulate in order. -/
def bindE {α β : Type} : EvalM α → (α → EvalM β) → EvalM β
  | (eff, .error e), _ => (eff, .error e)
  | (eff, .ok a), f => ((eff ++ (f a).1 : List Effect), (f a).2)

@[simp] theorem bindE_error {α β : Type} (eff : List Effect) (e : ErrVal)
    (f : α → EvalM β) : bindE (eff, .error e) f = (eff, .error e) := rfl

@[simp] theorem bindE_ok {α β : Type} (eff : List Effect) (a : α)
    (f : α → EvalM β) : bindE (eff, .ok a) f = (eff ++ (f a).1, (f a).2) := rfl

/-! ## Scope construction (worker.ts lines 72–114)

`observe` and `difference` are imported from `koishi-utils`, which is not
part of the worker's own source. -/

/-- Modelled from the spec: `difference` from `koishi-utils` — the changed
fields that lie outside the allow-list (elements of the first list that are
not in the second), used to reject commits fail-closed. -/
def difference (xs ys : List String) : List String :=
  xs.filter (fun x => !ys.contains x)

/-- Modelled from the spec: an observed record from `koishi-utils`'s
`observe` — a base record plus a tracked set of pending field changes
since the last commit. -/
structure Observed where
  base : List (String × Val)
  diff : Diff
deriving DecidableEq, Repr

/-- Modelled from the spec: `commit()` (`_update`) computes the diff
(changed-field → new-value mapping since last commit) and invokes the
update callback bound by `observe`. -/
def Observed.update (callback : Diff → EvalM Unit) (r : Observed) : EvalM Unit :=
  callback r.diff

/-- `ScopeData` (worker.ts lines 72–78): session identifier, partial user
record, partial channel record (each possibly absent), and the allow-listed
writable field names for each record. -/
structure ScopeData where
  id : String
  user : Option (List (String × Val))
  channel : Option (List (String × Val))
  userWritable : List String
  channelWritable : List String
deriving DecidableEq, Repr

/-- The update callback bound to the user record (worker.ts lines 88–94):
reject the diff with a `TypeError` when any changed field is outside
`userWritable`, otherwise perform `main.updateUser(id, diff)`. -/
def userCallback (id : String) (userWritable : List String) (diff : Diff) : EvalM Unit :=
  let diffKeys := difference (diff.map Prod.fst) userWritable
  if diffKeys.isEmpty then
    emitE (.updateUser id diff)
  else
    throwE (typeError ("cannot set user field: " ++ String.intercalate ", " diffKeys))

/-- The update callback bound to the channel record (worker.ts lines
96–102): reject the diff with a `TypeError` when any changed field is
outside `channelWritable`, otherwise perform `main.updateGroup(id, diff)`. -/
def channelCallback (id : String) (channelWritable : List String) (diff : Diff) : EvalM Unit :=
  let diffKeys := difference (diff.map Prod.fst) channelWritable
  if diffKeys.isEmpty then
    emitE (.updateGroup id diff)
  else
    throwE (typeError ("cannot set group field: " ++ String.intercalate ", " diffKeys))

/-- `Scope` (worker.ts lines 80–85): the observed user and channel records
(each absent when the corresponding record of the `ScopeData` was absent),
plus the data needed by their bound update callbacks. The `send`/`exec`
capabilities forward to `main.send`/`main.execute`. -/
structure Scope where
  id : String
  userWritable : List String
  channelWritable : List String
  user : Option Observed
  channel : Option Observed
deriving DecidableEq, Repr

/-- The `Scope` constructor (worker.ts lines 87–114): wraps the present
records into observed records (with empty pending diff) bound to their
allow-lists. -/
def Scope.build (d : ScopeData) : Scope :=
  { id := d.id
    userWritable := d.userWritable
    channelWritable := d.channelWritable
    user := d.user.map (fun base => ⟨base, []⟩)
    channel := d.channel.map (fun base => ⟨base, []⟩) }

/-- `scope.exec` (worker.ts lines 108–113): raise a `TypeError` unless the
argument is a string, otherwise forward to `main.execute`. The argument is
a JavaScript value: `some m` when it is the string `m`, `none` otherwise. -/
def Scope.exec (s : Scope) (message : Option String) : EvalM Unit :=
  match message with
  | none => throwE (typeError "The \x22message\x22 argument must be of type string")
  | some m => emitE (.execute s.id m)

/-! ## sync (worker.ts lines 138–141) -/

/-- `await scope.user?._update()`: commit the user record if present,
otherwise do nothing. -/
def syncUser (s : Scope) : EvalM Unit :=
  match s.user with
  | none => pureE ()
  | some r => Observed.update (userCallback s.id s.userWritable) r

/-- `await scope.channel?._update()`: commit the channel record if present,
otherwise do nothing. -/
def syncChannel (s : Scope) : EvalM Unit :=
  match s.channel with
  | none => pureE ()
  | some r => Observed.update (channelCallback s.id s.channelWritable) r

/-- `WorkerAPI.sync` (worker.ts lines 138–141): await the user commit, then
await the channel commit. -/
def WorkerAPI.sync (s : Scope) : EvalM Unit :=
  bindE (syncUser s) (fun _ => syncChannel s)

/-! ## Error Formatter & Path Redactor (worker.ts lines 49–68, 191–196)

The truncation regex `\s*.+(Script|MessagePort)[\s\S]*` removes everything
from the first line containing `Script` or `MessagePort` preceded by at
least one character (the `.+`) to the end of the stack, together with the
preceding whitespace; the path-rewrite rules are per-line global replaces
of `(at | \()` followed by a path with the marker followed by the rule's
identifier. We model the stack at line granularity. -/

/-- Whether `pat` occurs as a contiguous sublist of a character list. -/
def hasSubList (pat : List Char) : List Char → Bool
  | [] => pat.isPrefixOf []
  | c :: rest => pat.isPrefixOf (c :: rest) || hasSubList pat rest

/-- The truncation regex matches inside this line: `Script` or
`MessagePort` occurs at character index at least 1 (the regex's `.+`
requires one preceding character on the line). -/
def machineryLine (l : String) : Bool :=
  hasSubList "Script".data (l.data.drop 1) || hasSubList "MessagePort".data (l.data.drop 1)

/-- Left-to-right, non-overlapping replacement of every occurrence of
`pat` by `repl`, with explicit fuel (one unit per input character). -/
def replaceAllAux (pat repl : List Char) : Nat → List Char → List Char
  | 0, s => s
  | _ + 1, [] => []
  | fuel + 1, c :: rest =>
    if pat.isPrefixOf (c :: rest) && !pat.isEmpty then
      repl ++ replaceAllAux pat repl fuel ((c :: rest).drop pat.length)
    else
      c :: replaceAllAux pat repl fuel rest

/-- Replace every occurrence of `pat` in `s` by `repl` (the semantics of a
global-flag literal regex replace). -/
def replaceAllStr (pat repl s : String) : String :=
  ⟨replaceAllAux pat.data repl.data s.data.length s.data⟩

/-- A path-rewrite rule: friendly identifier and the path it redacts
(one `pathMapper` entry, built by `mapDirectory`, worker.ts lines
191–196). -/
abbrev Rules := List (String × String)

/-- Apply one path-rewrite rule to a line: the pattern
`(at | \()` ++ path, replaced globally by the marker followed by the
rule's identifier (`$1` ++ name). -/
def applyRule (line : String) (rule : String × String) : String :=
  replaceAllStr (" (" ++ rule.2) (" (" ++ rule.1)
    (replaceAllStr ("at " ++ rule.2) ("at " ++ rule.1) line)

/-- Apply every registered path-rewrite rule to one stack line (the `for
name in pathMapper` loop, worker.ts lines 61–66). -/
def rewriteLine (rules : Rules) (line : String) : String :=
  rules.foldl applyRule line

/-- `formatError` (worker.ts lines 55–68): a non-error-shaped raised value
formats as `"Uncaught: "` plus its textual rendering; an error-shaped value
has its stack truncated at the first machinery line, each remaining line
rewritten by every path rule, and the lines rejoined with newlines. -/
def formatError (rules : Rules) : ErrVal → String
  | .nonError t => "Uncaught: " ++ t
  | .err stack =>
    String.intercalate "\n"
      ((stack.takeWhile (fun l => !machineryLine l)).map (rewriteLine rules))

/-! ## Values and formatResult (worker.ts lines 51–53) -/

/-- The result value of a sandboxed evaluation, as far as the worker
inspects it: `undefined`, a number, or a string. -/
inductive Value where
  | undef
  | num (n : Int)
  | str (s : String)
deriving DecidableEq, Repr

/-- Models `formatWithOptions(config.inspect, value)` — the configured
value-inspection rendering capability (`util`, external per the spec):
deterministic rendering of the evaluated value. -/
def formatResult : Value → String
  | .undef => "undefined"
  | .num n => toString n
  | .str s => s

/-! ## The sandbox globals table and the eval lifecycle
(worker.ts lines 143–165) -/

/-- The sandbox's global table, keyed by the string of the registered
symbol (`Symbol.for(key)`). -/
abbrev Globals := List (String × Scope)

/-- `internal.setGlobal(Symbol.for(key), scope, true)`: bind `key`,
overwriting any previous binding. -/
def setGlobal (g : Globals) (k : String) (v : Scope) : Globals :=
  (k, v) :: g.filter (fun p => p.1 != k)

/-- `delete global[Symbol.for(key)]`: remove the binding of `key`. -/
def delGlobal (g : Globals) (k : String) : Globals :=
  g.filter (fun p => p.1 != k)

/-- Reading `global[Symbol.for(key)]`. -/
def lookupGlobal (g : Globals) (k : String) : Option Scope :=
  (g.find? (fun p => p.1 == k)).map Prod.snd

/-- The process-global handle key for one eval invocation
(worker.ts line 146): `'koishi-eval-context:' + data.id`. -/
def evalKey (id : String) : String := "koishi-eval-context:" ++ id

/-- `EvalOptions` (worker.ts lines 40–43). -/
structure EvalOptions where
  silent : Bool
  source : String

/-- The semantics of executing one user source string inside the sandbox,
given the globals it observes and the scope bound ambient by the `with`
wrapper: it performs effects and either raises or produces a value together
with the (possibly mutated) scope. The sandboxed interpreter is an external
capability, so this is a parameter of the worker model. -/
abbrev SourceSem := String → Globals → Scope → EvalM (Value × Scope)

/-- `vm.run` of the wrapped program
`with (global[Symbol.for(key)]) { delete global[Symbol.for(key)]; source }`
(worker.ts lines 152–157): the first action of the executed code deletes
the handle binding, and only then do the user-authored statements of
`source` run, against the globals with the handle already removed. Returns
the globals after the run and the run's outcome. -/
def runWrapped (sem : SourceSem) (key source : String) (g : Globals) (scope : Scope) :
    Globals × EvalM (Value × Scope) :=
  let g2 := delGlobal g key
  (g2, sem source g2 scope)

/-- `WorkerAPI.eval` (worker.ts lines 143–165): build the scope, install
the single-use handle, run the wrapped source; on a raise return the
formatted error; on success sync the scope, then return nothing when the
value is `undefined` or `silent` is set, and the formatted value
otherwise. Returns the final globals, the effects performed, and the
response. -/
def WorkerAPI.eval (rules : Rules) (sem : SourceSem) (g : Globals)
    (data : ScopeData) (options : EvalOptions) :
    Globals × List Effect × Option String :=
  let key := evalKey data.id
  let scope := Scope.build data
  let g1 := setGlobal g key scope
  let (g2, res) := runWrapped sem key options.source g1 scope
  match res with
  | (eff, .error e) => (g2, eff, some (formatError rules e))
  | (eff, .ok (v, scope2)) =>
    match WorkerAPI.sync scope2 with
    | (eff2, .error e) => (g2, eff ++ eff2, some (formatError rules e))
    | (eff2, .ok _) =>
      (g2, eff ++ eff2,
        if v = Value.undef ∨ options.silent = true then none else some (formatResult v))

/-! ## Addon registry and callAddon (worker.ts lines 116–135, 167–185) -/

/-- `AddonArgv` options (`Record<string, any>`), of which the worker reads
only the `debug` flag. -/
structure AddonOptions where
  debug : Bool
deriving DecidableEq, Repr

/-- `AddonArgv` (worker.ts lines 122–126): addon name, positional
arguments, parsed options. -/
structure AddonArgv where
  name : String
  args : List String
  options : AddonOptions
deriving DecidableEq, Repr

/-- `AddonAction` (worker.ts line 130): a handler invoked on the
`AddonScope` (the argv merged with the scope); it performs effects and
either raises or produces an optional result string together with the
(possibly mutated) scope. -/
abbrev AddonAction := AddonArgv → Scope → EvalM (Option String × Scope)

/-- The addon registry `commandMap` (worker.ts line 131), as an insertion
ordered association list (JavaScript plain-object key order). -/
abbrev CommandMap := List (String × AddonAction)

/-- `commandMap[name] = callback` (worker.ts lines 181–185,
`registerCommand` exposed through the synthetized `koishi/addons.ts`
module): overwrite in place when the name exists, append otherwise. -/
def registerCommand (m : CommandMap) (name : String) (callback : AddonAction) : CommandMap :=
  if m.any (fun p => p.1 = name) then
    m.map (fun p => if p.1 = name then (name, callback) else p)
  else
    m ++ [(name, callback)]

/-- The registry read `commandMap[argv.name]` (worker.ts line 168). -/
def lookupCommand (m : CommandMap) (name : String) : Option AddonAction :=
  match m with
  | [] => none
  | p :: t => if p.1 = name then some p.2 else lookupCommand t name

/-- `await callback(ctx)` where `callback` may be the absent registry
entry: calling `undefined` raises the JavaScript
`TypeError: callback is not a function`. -/
def invokeAction : Option AddonAction → AddonArgv → Scope → EvalM (Option String × Scope)
  | none, _, _ => throwE (typeError "callback is not a function")
  | some callback, argv, scope => callback argv scope

/-- `WorkerAPI.callAddon` (worker.ts lines 167–178): look up the handler,
invoke it on the argv-plus-scope context, sync the context, and return the
handler's result; on any raise, return the formatted error when
`argv.options.debug` is set, otherwise log the error and return nothing. -/
def WorkerAPI.callAddon (rules : Rules) (commandMap : CommandMap)
    (options : ScopeData) (argv : AddonArgv) : List Effect × Option String :=
  let callback := lookupCommand commandMap argv.name
  match bindE (invokeAction callback argv (Scope.build options))
      (fun rc => bindE (WorkerAPI.sync rc.2) (fun _ => pureE rc.1)) with
  | (eff, .ok result) => (eff, result)
  | (eff, .error e) =>
    if argv.options.debug then (eff, some (formatError rules e))
    else (eff ++ [.logWarn e], none)

/-! ## start and the worker startup (worker.ts lines 116–120, 133–136,
200–211) -/

/-- `WorkerResponse` (worker.ts lines 116–120): `{ commands?: string[] }`,
populated once during startup. -/
structure WorkerResponse where
  commands : Option (List String)

/-- `WorkerAPI.start` (worker.ts lines 134–136): return the module-level
response object. -/
def WorkerAPI.start (response : WorkerResponse) : WorkerResponse := response

/-- The worker startup (worker.ts lines 200–211): the loader registers
each addon's commands into `commandMap`, and then
`response.commands = Object.keys(commandMap)` snapshots the final name
list. -/
def startup (addons : List (String × AddonAction)) : CommandMap × WorkerResponse :=
  let m := addons.foldl (fun acc p => registerCommand acc p.1 p.2) []
  (m, ⟨some (m.map Prod.fst)⟩)

/-! ## Helper lemmas -/

theorem difference_eq_nil_iff (xs ys : List String) :
    difference xs ys = [] ↔ ∀ x ∈ xs, x ∈ ys := by
  simp [difference, List.filter_eq_nil_iff]

theorem isEmpty_eq_false_of_ne_nil {α : Type} {l : List α} (h : l ≠ []) :
    l.isEmpty = false := by
  cases l with
  | nil => exact absurd rfl h
  | cons a t => rfl

/-! ## C1 -/

/-- **C1.** For every session id and allow-lists, committing an observed
record whose pending diff has all keys in the user allow-list performs
`updateUser` exactly once with exactly that diff; a diff with any key
outside the allow-list raises the write-denied `TypeError` and performs no
update effect at all. The same holds for the channel record with
`channelWritable` and `updateGroup`. -/
theorem commit_respects_allowlist (id : String) (Wu Wc : List String) (r : Observed) :
    ((∀ k ∈ r.diff.map Prod.fst, k ∈ Wu) →
        Observed.update (userCallback id Wu) r = ([Effect.updateUser id r.diff], Except.ok ())) ∧
    ((∃ k ∈ r.diff.map Prod.fst, k ∉ Wu) →
        Observed.update (userCallback id Wu) r =
          ([], Except.error (typeError ("cannot set user field: " ++
              String.intercalate ", " (difference (r.diff.map Prod.fst) Wu))))) ∧
    ((∀ k ∈ r.diff.map Prod.fst, k ∈ Wc) →
        Observed.update (channelCallback id Wc) r = ([Effect.updateGroup id r.diff], Except.ok ())) ∧
    ((∃ k ∈ r.diff.map Prod.fst, k ∉ Wc) →
        Observed.update (channelCallback id Wc) r =
          ([], Except.error (typeError ("cannot set group field: " ++
              String.intercalate ", " (difference (r.diff.map Prod.fst) Wc))))) := by
  refine ⟨fun h => ?_, fun h => ?_, fun h => ?_, fun h => ?_⟩
  · have hd : difference (r.diff.map Prod.fst) Wu = [] := (difference_eq_nil_iff _ _).mpr h
    simp [Observed.update, userCallback, hd, emitE]
  · have hd : difference (r.diff.map Prod.fst) Wu ≠ [] := by
      intro he
      obtain ⟨k, hk, hkW⟩ := h
      exact hkW ((difference_eq_nil_iff _ _).mp he k hk)
    simp [Observed.update, userCallback, isEmpty_eq_false_of_ne_nil hd, throwE]
  · have hd : difference (r.diff.map Prod.fst) Wc = [] := (difference_eq_nil_iff _ _).mpr h
    simp [Observed.update, channelCallback, hd, emitE]
  · have hd : difference (r.diff.map Prod.fst) Wc ≠ [] := by
      intro he
      obtain ⟨k, hk, hkW⟩ := h
      exact hkW ((difference_eq_nil_iff _ _).mp he k hk)
    simp [Observed.update, channelCallback, isEmpty_eq_false_of_ne_nil hd, throwE]

/-- **C1 witness.** A concrete allowed commit performs exactly one
`updateUser` with exactly the pending diff; the same diff against an empty
allow-list raises the write-denied `TypeError` with no update effect. -/
theorem commit_respects_allowlist_witness :
    Observed.update (userCallback "s1" ["flag"]) ⟨[], [("flag", "1")]⟩
        = ([Effect.updateUser "s1" [("flag", "1")]], Except.ok ()) ∧
    Observed.update (userCallback "s1" []) ⟨[], [("flag", "1")]⟩
        = ([], Except.error (typeError "cannot set user field: flag")) :=
  ⟨(commit_respects_allowlist "s1" ["flag"] [] ⟨[], [("flag", "1")]⟩).1 (by decide),
   (commit_respects_allowlist "s1" [] [] ⟨[], [("flag", "1")]⟩).2.1 ⟨"flag", by decide, by decide⟩⟩

/-! ## C2 -/

/-- **C2.** For every eval invocation whose source execution raises, `eval`
returns the sanitized formatted error string, and `sync` is not called: the
invocation's effects are exactly the effects the source itself performed
before raising, so no state commit is triggered by a failed evaluation. -/
theorem eval_error_returns_formatError (rules : Rules) (sem : SourceSem) (g : Globals)
    (data : ScopeData) (opts : EvalOptions) (eff : List Effect) (e : ErrVal)
    (hrun : sem opts.source
        (delGlobal (setGlobal g (evalKey data.id) (Scope.build data)) (evalKey data.id))
        (Scope.build data) = (eff, Except.error e)) :
    WorkerAPI.eval rules sem g data opts =
      (delGlobal (setGlobal g (evalKey data.id) (Scope.build data)) (evalKey data.id),
       eff, some (formatError rules e)) := by
  simp [WorkerAPI.eval, runWrapped, hrun]

/-- **C2 witness.** A concrete source execution that raises the value `7`:
eval returns `"Uncaught: 7"`, performs no effect, and commits nothing. -/
theorem eval_error_returns_formatError_witness :
    WorkerAPI.eval [] (fun _ _ _ => throwE (ErrVal.nonError "7")) []
        ⟨"s1", none, none, [], []⟩ ⟨false, "throw 7"⟩
      = ([], [], some "Uncaught: 7") :=
  eval_error_returns_formatError [] (fun _ _ _ => throwE (ErrVal.nonError "7")) []
    ⟨"s1", none, none, [], []⟩ ⟨false, "throw 7"⟩ [] (ErrVal.nonError "7") rfl

/-! ## C3 -/

/-- **C3 counterexample.** A scope whose user commit is denied (pending
user diff `x` with empty user allow-list) and whose channel commit would
succeed (pending channel diff `y` with `y` allow-listed): `sync` raises the
user write-denial with an empty effect list — `updateGroup` is never
performed — while the channel commit alone would have performed it. This
refutes the claim that a failure committing the user record does not
prevent the attempt to commit the channel record. -/
theorem sync_user_failure_skips_channel_counterexample :
    WorkerAPI.sync ⟨"s1", [], ["y"], some ⟨[], [("x", "1")]⟩, some ⟨[], [("y", "2")]⟩⟩
        = ([], Except.error (typeError "cannot set user field: x")) ∧
    syncChannel ⟨"s1", [], ["y"], some ⟨[], [("x", "1")]⟩, some ⟨[], [("y", "2")]⟩⟩
        = ([Effect.updateGroup "s1" [("y", "2")]], Except.ok ()) :=
  ⟨rfl, rfl⟩

/-- **C3 amended.** `sync` commits the user record first and the channel
record second, in that fixed order; however, a raise from the user commit
propagates immediately and the channel commit is *not* attempted, while
after a successful user commit the channel commit is attempted and its
outcome (effects and any raise) follows the performed `updateUser`. -/
theorem sync_order_and_short_circuit (s : Scope) (r : Observed) (h : s.user = some r) :
    (∀ e : ErrVal, userCallback s.id s.userWritable r.diff = ([], Except.error e) →
        WorkerAPI.sync s = ([], Except.error e)) ∧
    (userCallback s.id s.userWritable r.diff = ([Effect.updateUser s.id r.diff], Except.ok ()) →
        WorkerAPI.sync s =
          (Effect.updateUser s.id r.diff :: (syncChannel s).1, (syncChannel s).2)) := by
  constructor
  · intro e he
    simp [WorkerAPI.sync, syncUser, h, Observed.update, he]
  · intro he
    simp [WorkerAPI.sync, syncUser, h, Observed.update, he]

/-- **C3 amended witness.** On a scope where both commits are allowed,
`sync` performs `updateUser` first and `updateGroup` second. -/
theorem sync_order_and_short_circuit_witness :
    WorkerAPI.sync ⟨"s1", ["x"], ["y"], some ⟨[], [("x", "1")]⟩, some ⟨[], [("y", "2")]⟩⟩
        = ([Effect.updateUser "s1" [("x", "1")], Effect.updateGroup "s1" [("y", "2")]],
           Except.ok ()) :=
  (sync_order_and_short_circuit
      ⟨"s1", ["x"], ["y"], some ⟨[], [("x", "1")]⟩, some ⟨[], [("y", "2")]⟩⟩
      ⟨[], [("x", "1")]⟩ rfl).2 rfl

/-! ## C4 -/

/-- A trivial registered addon handler that succeeds returning nothing. -/
def okAction : AddonAction := fun _ scope => pureE (none, scope)

/-- A registered addon handler that raises the value `"x"`. -/
def boomAction : AddonAction := fun _ _ => throwE (ErrVal.nonError "x")

/-- A `ScopeData` with neither a user nor a channel record. -/
def emptyData : ScopeData := ⟨"s1", none, none, [], []⟩

/-- **C4.** For every `callAddon` invocation whose registered handler
raises: with `argv.options.debug` set, `callAddon` returns the sanitized
formatted error string; with `debug` unset, it only logs the error and
returns nothing — the error text is not part of the response. -/
theorem callAddon_debug_gates_error (rules : Rules) (m : CommandMap) (data : ScopeData)
    (argv : AddonArgv) (cb : AddonAction) (eff : List Effect) (e : ErrVal)
    (hcb : lookupCommand m argv.name = some cb)
    (hrun : cb argv (Scope.build data) = (eff, Except.error e)) :
    (argv.options.debug = true →
        WorkerAPI.callAddon rules m data argv = (eff, some (formatError rules e))) ∧
    (argv.options.debug = false →
        WorkerAPI.callAddon rules m data argv = (eff ++ [Effect.logWarn e], none)) := by
  constructor <;> intro hd <;>
    simp [WorkerAPI.callAddon, hcb, invokeAction, hrun, hd]

/-- **C4 witness.** A concrete handler raising the value `"x"`: with
`debug` set the response is `"Uncaught: x"`, with `debug` unset the
response is nothing and the error is logged. -/
theorem callAddon_debug_gates_error_witness :
    WorkerAPI.callAddon [] [("boom", boomAction)] emptyData ⟨"boom", [], ⟨true⟩⟩
        = ([], some "Uncaught: x") ∧
    WorkerAPI.callAddon [] [("boom", boomAction)] emptyData ⟨"boom", [], ⟨false⟩⟩
        = ([Effect.logWarn (ErrVal.nonError "x")], none) :=
  ⟨(callAddon_debug_gates_error [] [("boom", boomAction)] emptyData ⟨"boom", [], ⟨true⟩⟩
      boomAction [] (ErrVal.nonError "x") rfl rfl).1 rfl,
   (callAddon_debug_gates_error [] [("boom", boomAction)] emptyData ⟨"boom", [], ⟨false⟩⟩
      boomAction [] (ErrVal.nonError "x") rfl rfl).2 rfl⟩

/-! ## C5 -/

/-- **C5 counterexample.** With an addon name absent from the registry and
`debug` unset, `callAddon` does not reject with any registry-misuse
condition: the absent entry is invoked, the resulting generic
`TypeError: callback is not a function` is caught by the ordinary addon
error path and merely logged, and the caller-visible response (`none`) is
identical to that of a successfully completed handler that returned
nothing — the rejection is not unambiguous. -/
theorem callAddon_missing_name_counterexample :
    WorkerAPI.callAddon [] [] emptyData ⟨"nope", [], ⟨false⟩⟩
        = ([Effect.logWarn (typeError "callback is not a function")], none) ∧
    WorkerAPI.callAddon [] [("ok", okAction)] emptyData ⟨"ok", [], ⟨false⟩⟩ = ([], none) :=
  ⟨rfl, rfl⟩

/-- **C5 amended.** For every `callAddon` invocation whose `argv.name` is
absent from the registry, the absent entry is invoked and the resulting
generic `TypeError: callback is not a function` flows through the ordinary
addon error path: with `debug` set the formatted text of that `TypeError`
is returned, otherwise it is logged and nothing is returned; no dedicated
registry-misuse condition is raised. -/
theorem callAddon_missing_name_generic_typeerror (rules : Rules) (m : CommandMap)
    (data : ScopeData) (argv : AddonArgv) (h : lookupCommand m argv.name = none) :
    (argv.options.debug = true →
        WorkerAPI.callAddon rules m data argv
          = ([], some (formatError rules (typeError "callback is not a function")))) ∧
    (argv.options.debug = false →
        WorkerAPI.callAddon rules m data argv
          = ([Effect.logWarn (typeError "callback is not a function")], none)) := by
  constructor <;> intro hd <;>
    simp [WorkerAPI.callAddon, h, invokeAction, throwE, hd]

/-- **C5 amended witness.** A concrete missing name with `debug` set: the
response is the formatted generic `TypeError`. -/
theorem callAddon_missing_name_generic_typeerror_witness :
    WorkerAPI.callAddon [] [] emptyData ⟨"nope", [], ⟨true⟩⟩
        = ([], some "TypeError: callback is not a function") :=
  (callAddon_missing_name_generic_typeerror [] [] emptyData ⟨"nope", [], ⟨true⟩⟩ rfl).1 rfl

/-! ## C6 -/

theorem lookupGlobal_setGlobal_self (g : Globals) (k : String) (v : Scope) :
    lookupGlobal (setGlobal g k v) k = some v := by
  simp [lookupGlobal, setGlobal, List.find?_cons]

theorem lookupGlobal_delGlobal_self (g : Globals) (k : String) :
    lookupGlobal (delGlobal g k) k = none := by
  simp [delGlobal, lookupGlobal, List.find?_eq_none, List.mem_filter]

/-- A source semantics that evaluates to `undefined` without effects. -/
def semNull : SourceSem := fun _ _ scope => pureE (Value.undef, scope)

/-- **C6.** The per-invocation handle key incorporates the session id and
never collides across distinct session ids; the handle is installed under
that key (the `with` wrapper observes exactly the installed scope), and the
wrapped program deletes the handle binding as its first action, so the user
source runs against globals in which the handle key is already absent. -/
theorem eval_handle_single_use (id1 id2 key source : String) (g : Globals)
    (scope : Scope) (sem : SourceSem) :
    (id1 ≠ id2 → evalKey id1 ≠ evalKey id2) ∧
    lookupGlobal (setGlobal g key scope) key = some scope ∧
    (runWrapped sem key source g scope).1 = delGlobal g key ∧
    lookupGlobal (delGlobal g key) key = none ∧
    (runWrapped sem key source g scope).2 = sem source (delGlobal g key) scope := by
  refine ⟨fun h he => ?_, lookupGlobal_setGlobal_self g key scope, rfl,
    lookupGlobal_delGlobal_self g key, rfl⟩
  apply h
  have hd := congrArg String.data he
  simp only [evalKey, String.data_append] at hd
  exact String.ext (List.append_cancel_left hd)

/-- **C6 witness.** Distinct session ids `"a"` and `"b"` give distinct
handle keys, and on a concrete globals table the installed handle is
observed and then absent once deleted. -/
theorem eval_handle_single_use_witness :
    evalKey "a" ≠ evalKey "b" ∧
    lookupGlobal (setGlobal [] "k" (Scope.build emptyData)) "k"
        = some (Scope.build emptyData) ∧
    lookupGlobal (delGlobal (setGlobal [] "k" (Scope.build emptyData)) "k") "k" = none :=
  ⟨(eval_handle_single_use "a" "b" "k" "" [] (Scope.build emptyData) semNull).1 (by decide),
   (eval_handle_single_use "a" "b" "k" "" [] (Scope.build emptyData) semNull).2.1,
   (eval_handle_single_use "a" "b" "k" ""
      (setGlobal [] "k" (Scope.build emptyData)) (Scope.build emptyData) semNull).2.2.2.1⟩

/-! ## C7 -/

/-- A source semantics in which the user source evaluates to `2` after
staging a write to the user field `x` (e.g. `user.x = 1; 2`). -/
def semWriteThenTwo : SourceSem := fun _ _ scope =>
  pureE (Value.num 2, { scope with user := some ⟨[], [("x", "1")]⟩ })

/-- A `ScopeData` with a present (empty) user record and an empty user
allow-list. -/
def lockedUserData : ScopeData := ⟨"s1", some [], none, [], []⟩

/-- A source semantics in which the user source evaluates to `2` without
touching any record (e.g. `1+1`). -/
def semOnePlusOne : SourceSem := fun _ _ scope => pureE (Value.num 2, scope)

/-- **C7 counterexample.** A source that executes without raising
(evaluating to `2` after staging a write to a non-writable user field):
the subsequent `sync` raises the write denial, so `eval` returns the
formatted error string — neither nothing nor `formatResult` of the
evaluated value (`"2"`) — refuting the claim for this invocation. -/
theorem eval_success_denied_commit_counterexample :
    WorkerAPI.eval [] semWriteThenTwo [] lockedUserData ⟨false, "user.x = 1; 2"⟩
        = ([], [], some "TypeError: cannot set user field: x") ∧
    some "TypeError: cannot set user field: x" ≠ some (formatResult (Value.num 2)) := by
  exact ⟨rfl, by decide⟩

/-- **C7 amended.** For every eval invocation whose source executes without
raising, `sync` is called on the invocation's scope; when `sync` succeeds
the return value is nothing if the evaluated value is `undefined` or
`silent` is set and otherwise the value rendered by `formatResult`; when
`sync` raises (a denied commit), `eval` instead returns the sanitized
formatted error string. -/
theorem eval_success_returns_value (rules : Rules) (sem : SourceSem) (g : Globals)
    (data : ScopeData) (opts : EvalOptions) (eff : List Effect) (v : Value) (scope2 : Scope)
    (hrun : sem opts.source
        (delGlobal (setGlobal g (evalKey data.id) (Scope.build data)) (evalKey data.id))
        (Scope.build data) = (eff, Except.ok (v, scope2))) :
    (∀ eff2 : List Effect, WorkerAPI.sync scope2 = (eff2, Except.ok ()) →
        WorkerAPI.eval rules sem g data opts =
          (delGlobal (setGlobal g (evalKey data.id) (Scope.build data)) (evalKey data.id),
           eff ++ eff2,
           if v = Value.undef ∨ opts.silent = true then none else some (formatResult v))) ∧
    (∀ (eff2 : List Effect) (e : ErrVal), WorkerAPI.sync scope2 = (eff2, Except.error e) →
        WorkerAPI.eval rules sem g data opts =
          (delGlobal (setGlobal g (evalKey data.id) (Scope.build data)) (evalKey data.id),
           eff ++ eff2, some (formatError rules e))) := by
  constructor
  · intro eff2 hsync
    simp [WorkerAPI.eval, runWrapped, hrun, hsync]
  · intro eff2 e hsync
    simp [WorkerAPI.eval, runWrapped, hrun, hsync]

/-- **C7 amended witness.** `eval` of a source evaluating to `2` over a
scope with no records: the response is `"2"`, and nothing with `silent`
set. -/
theorem eval_success_returns_value_witness :
    WorkerAPI.eval [] semOnePlusOne [] emptyData ⟨false, "1+1"⟩ = ([], [], some "2") ∧
    WorkerAPI.eval [] semOnePlusOne [] emptyData ⟨true, "1+1"⟩ = ([], [], none) :=
  ⟨(eval_success_returns_value [] semOnePlusOne [] emptyData ⟨false, "1+1"⟩ []
      (Value.num 2) (Scope.build emptyData) rfl).1 [] rfl,
   (eval_success_returns_value [] semOnePlusOne [] emptyData ⟨true, "1+1"⟩ []
      (Value.num 2) (Scope.build emptyData) rfl).1 [] rfl⟩

/-! ## C8 -/

theorem lookup_map_replace (m : CommandMap) (name : String) (cb : AddonAction)
    (h : m.any (fun p => p.1 = name) = true) :
    lookupCommand (m.map (fun p => if p.1 = name then (name, cb) else p)) name = some cb := by
  induction m with
  | nil => simp at h
  | cons p t ih =>
    by_cases hp : p.1 = name
    · simp [lookupCommand, hp]
    · simp only [List.any_cons, hp, decide_False, Bool.false_or] at h
      simp [lookupCommand, hp, ih h]

theorem lookup_append_single (m : CommandMap) (name : String) (cb : AddonAction) :
    lookupCommand (m ++ [(name, cb)]) name = some cb ∨
    (m.any (fun p => p.1 = name)) = true := by
  induction m with
  | nil => left; simp [lookupCommand]
  | cons p t ih =>
    by_cases hp : p.1 = name
    · right; simp [List.any_cons, hp]
    · rcases ih with h | h
      · left; simp [lookupCommand, hp, h]
      · right; simp [List.any_cons, h]

theorem lookupCommand_registerCommand_self (m : CommandMap) (name : String) (cb : AddonAction) :
    lookupCommand (registerCommand m name cb) name = some cb := by
  unfold registerCommand
  by_cases h : m.any (fun p => p.1 = name)
  · rw [if_pos h]; exact lookup_map_replace m name cb h
  · rw [if_neg h]
    rcases lookup_append_single m name cb with h2 | h2
    · exact h2
    · exact absurd h2 h

theorem lookup_map_replace_other (m : CommandMap) (name n : String) (cb : AddonAction)
    (hne : n ≠ name) :
    lookupCommand (m.map (fun p => if p.1 = name then (name, cb) else p)) n
      = lookupCommand m n := by
  induction m with
  | nil => rfl
  | cons p t ih =>
    by_cases hp : p.1 = name
    · have h2 : ¬(name = n) := fun he => hne he.symm
      have h3 : ¬(p.1 = n) := by rw [hp]; exact h2
      simp [lookupCommand, hp, h2, h3, ih]
    · rw [List.map_cons, if_neg hp]
      by_cases hpn : p.1 = n
      · simp [lookupCommand, hpn]
      · simp [lookupCommand, hpn, ih]

theorem lookup_append_single_other (m : CommandMap) (name n : String) (cb : AddonAction)
    (hne : n ≠ name) :
    lookupCommand (m ++ [(name, cb)]) n = lookupCommand m n := by
  induction m with
  | nil =>
    have h2 : ¬(name = n) := fun he => hne he.symm
    simp [lookupCommand, h2]
  | cons p t ih =>
    by_cases hpn : p.1 = n
    · simp [lookupCommand, hpn]
    · simp [lookupCommand, hpn, ih]

theorem lookupCommand_registerCommand_other (m : CommandMap) (name n : String)
    (cb : AddonAction) (hne : n ≠ name) :
    lookupCommand (registerCommand m name cb) n = lookupCommand m n := by
  unfold registerCommand
  by_cases h : m.any (fun p => p.1 = name)
  · rw [if_pos h]; exact lookup_map_replace_other m name n cb hne
  · rw [if_neg h]; exact lookup_append_single_other m name n cb hne

/-- A registered addon handler that succeeds returning `"hi"`. -/
def demoAction : AddonAction := fun _ scope => pureE (some "hi", scope)

/-- **C8 counterexample.** After the startup that registered the single
addon command `"a"`, a further `registerCommand` for `"late"` is not
rejected and does not fail loudly: it succeeds and mutates the mapping
observed by lookups (`"late"` was absent before and is present after),
refuting the frozen/read-only claim. `start` keeps returning the name-list
snapshot taken at startup. -/
theorem registry_not_frozen_counterexample :
    lookupCommand (startup [("a", okAction)]).1 "late" = none ∧
    lookupCommand (registerCommand (startup [("a", okAction)]).1 "late" demoAction) "late"
        = some demoAction ∧
    (WorkerAPI.start (startup [("a", okAction)]).2).commands = some ["a"] :=
  ⟨rfl, rfl, rfl⟩

/-- **C8 amended.** The addon registry is a plain mutable map with no
freeze and no phase check: `registerCommand` succeeds at any time, making
the new handler observable under its name and leaving every other name's
binding unchanged; addons are loaded during startup, and `start` returns
the response holding the name-list snapshot `Object.keys(commandMap)`
taken when startup completed (unchanged by the mutation itself). -/
theorem registry_mutable_after_startup (m : CommandMap) (name : String) (cb : AddonAction)
    (addons : List (String × AddonAction)) :
    lookupCommand (registerCommand m name cb) name = some cb ∧
    (∀ n, n ≠ name → lookupCommand (registerCommand m name cb) n = lookupCommand m n) ∧
    (WorkerAPI.start (startup addons).2).commands = some ((startup addons).1.map Prod.fst) :=
  ⟨lookupCommand_registerCommand_self m name cb,
   fun n hn => lookupCommand_registerCommand_other m name n cb hn, rfl⟩

/-- **C8 amended witness.** Registering `"late"` after the startup that
registered `"a"` exposes `"late"` and leaves the binding of `"a"`
unchanged. -/
theorem registry_mutable_after_startup_witness :
    lookupCommand (registerCommand (startup [("a", okAction)]).1 "late" demoAction) "late"
        = some demoAction ∧
    lookupCommand (registerCommand (startup [("a", okAction)]).1 "late" demoAction) "a"
        = lookupCommand (startup [("a", okAction)]).1 "a" :=
  ⟨(registry_mutable_after_startup (startup [("a", okAction)]).1 "late" demoAction []).1,
   (registry_mutable_after_startup (startup [("a", okAction)]).1 "late" demoAction []).2.1
      "a" (by decide)⟩

/-! ## C9 -/

theorem takeWhile_prefix_stop {α : Type} (p : α → Bool) (pre : List α) (m : α) (post : List α)
    (hpre : ∀ l ∈ pre, p l = true) (hm : p m = false) :
    (pre ++ m :: post).takeWhile p = pre := by
  induction pre with
  | nil => simp [List.takeWhile_cons, hm]
  | cons a t ih =>
    have ha : p a = true := hpre a (by simp)
    simp [List.takeWhile_cons, ha, ih (fun l hl => hpre l (by simp [hl]))]

theorem takeWhile_all {α : Type} (p : α → Bool) (l : List α)
    (h : ∀ x ∈ l, p x = true) : l.takeWhile p = l := by
  induction l with
  | nil => rfl
  | cons a t ih =>
    simp [List.takeWhile_cons, h a (by simp), ih (fun x hx => h x (by simp [hx]))]

/-- **C9.** `formatError` of a non-error-shaped raised value is
`"Uncaught: "` followed by its textual rendering. For an error-shaped
value whose stack consists of non-machinery lines `pre`, then a first
machinery line `m` (one belonging to the execution/transport machinery),
then anything: the result keeps exactly the lines of `pre`, applies every
registered path-rewrite rule to each kept line, and rejoins them with
newlines; a stack with no machinery line is kept whole, rewritten
line-by-line. -/
theorem formatError_drops_machinery_and_rewrites (rules : Rules) (t : String)
    (pre : List String) (m : String) (post : List String) (lines : List String) :
    (formatError rules (.nonError t) = "Uncaught: " ++ t) ∧
    ((∀ l ∈ pre, machineryLine l = false) → machineryLine m = true →
        formatError rules (.err (pre ++ m :: post)) =
          String.intercalate "\n" (pre.map (rewriteLine rules))) ∧
    ((∀ l ∈ lines, machineryLine l = false) →
        formatError rules (.err lines) =
          String.intercalate "\n" (lines.map (rewriteLine rules))) := by
  refine ⟨rfl, fun hpre hm => ?_, fun hl => ?_⟩
  · have e1 : formatError rules (.err (pre ++ m :: post))
        = String.intercalate "\n"
            (((pre ++ m :: post).takeWhile (fun l => !machineryLine l)).map
              (rewriteLine rules)) := rfl
    rw [e1, takeWhile_prefix_stop _ pre m post
      (fun l hl => by rw [hpre l hl]; rfl) (by rw [hm]; rfl)]
  · have e2 : formatError rules (.err lines)
        = String.intercalate "\n"
            ((lines.takeWhile (fun l => !machineryLine l)).map (rewriteLine rules)) := rfl
    rw [e2, takeWhile_all _ lines (fun x hx => by rw [hl x hx]; rfl)]

/-- **C9 witness.** A concrete error-shaped stack: the `Script` and
`MessagePort` frames are dropped, and the registered rule rewriting the
path `/app/src/` to the identifier `koishi/` redacts the kept frame. -/
theorem formatError_drops_machinery_and_rewrites_witness :
    formatError [("koishi/", "/app/src/")]
        (.err ["TypeError: x", "    at foo (/app/src/worker.ts:1)",
               "    at Script.runInContext (vm)", "    at MessagePort.run"])
      = "TypeError: x\n    at foo (koishi/worker.ts:1)" := by
  have h := (formatError_drops_machinery_and_rewrites [("koishi/", "/app/src/")] ""
      ["TypeError: x", "    at foo (/app/src/worker.ts:1)"]
      "    at Script.runInContext (vm)" ["    at MessagePort.run"] []).2.1
      (by decide) (by decide)
  exact h.trans (by decide)

/-! ## C10 -/

/-- **C10.** A scope built from a `ScopeData` with an absent user record
has an absent observed user record, and `sync` skips it without raising
and without any `updateUser` effect (`sync` reduces to the channel commit
alone); likewise for an absent channel record and `updateGroup`; with
neither record present, `sync` succeeds with no update effect at all. -/
theorem sync_skips_absent_records (data : ScopeData) (s : Scope) :
    (data.user = none → (Scope.build data).user = none) ∧
    (data.channel = none → (Scope.build data).channel = none) ∧
    (s.user = none → WorkerAPI.sync s = syncChannel s) ∧
    (s.channel = none → WorkerAPI.sync s = syncUser s) ∧
    (s.user = none → s.channel = none → WorkerAPI.sync s = ([], Except.ok ())) := by
  refine ⟨fun h => ?_, fun h => ?_, fun h => ?_, fun h => ?_, fun h1 h2 => ?_⟩
  · simp [Scope.build, h]
  · simp [Scope.build, h]
  · simp [WorkerAPI.sync, syncUser, h, pureE, bindE]
  · rcases hm : syncUser s with ⟨eff, r⟩
    cases r with
    | error e => simp [WorkerAPI.sync, syncChannel, h, hm, bindE]
    | ok a =>
      cases a
      simp [WorkerAPI.sync, syncChannel, h, hm, bindE, pureE]
  · simp [WorkerAPI.sync, syncUser, syncChannel, h1, h2, bindE, pureE]

/-- **C10 witness.** On the scope built from a `ScopeData` with neither
record, `sync` succeeds and performs no update callback at all. -/
theorem sync_skips_absent_records_witness :
    (Scope.build emptyData).user = none ∧
    (Scope.build emptyData).channel = none ∧
    WorkerAPI.sync (Scope.build emptyData) = ([], Except.ok ()) :=
  ⟨(sync_skips_absent_records emptyData (Scope.build emptyData)).1 rfl,
   (sync_skips_absent_records emptyData (Scope.build emptyData)).2.1 rfl,
   (sync_skips_absent_records emptyData (Scope.build emptyData)).2.2.2.2 rfl rfl⟩

end Koishi
